import Mathlib

/-!
Shallow embedding of the SublimeLinter-contrib-at_code_checker plugin
(file linter.py) and proofs about it.

Python strings are modelled as Lean `String` (a wrapper around `List Char`),
the filesystem as a boolean existence predicate together with an oracle
saying on which paths `os.makedirs` raises a non-EEXIST `OSError`, and the
host editor / SublimeLinter framework APIs (buffer search, subprocess
invocation, temp-file naming, environment, platform data) as explicit
parameters collected in a context structure.  Mutable class state
(`Dir_Map`, `LastIncludeMatch`) and filesystem effects are threaded through
an explicit state record.
-/

namespace AtCodeChecker

/-! ### Python string primitives -/

/-- `listLeads pat l` is true when `pat` is an initial segment of `l`. -/
def listLeads : List Char → List Char → Bool
  | [], _ => true
  | _ :: _, [] => false
  | a :: as, b :: bs => a == b && listLeads as bs

/-- First index at which `sub` occurs in the list, if any
(the model of Python `str.find` / the `in` operator). -/
def listFind (sub : List Char) : List Char → Option Nat
  | [] => if sub.isEmpty then some 0 else none
  | b :: bs => if listLeads sub (b :: bs) then some 0 else (listFind sub bs).map (· + 1)

/-- Python `sub in s` for strings. -/
def hasSub (s sub : String) : Bool := (listFind sub.data s.data).isSome

/-- Python `s.startswith(p)`. -/
def leadsWith (s p : String) : Bool := listLeads p.data s.data

/-- Python `s.find(sub)`: first index of `sub` in `s`, or `-1`. -/
def strFindInt (s sub : String) : Int :=
  match listFind sub.data s.data with
  | some n => (n : Int)
  | none => -1

/-- Python `s[:n]`. -/
def strTake (s : String) (n : Nat) : String := String.mk (s.data.take n)

/-- Characters stripped by Python `str.strip()`. -/
def isPySpace (c : Char) : Bool :=
  c == ' ' || c == '\t' || c == '\n' || c == '\r' || c == '\x0b' || c == '\x0c'

/-- Python `s.lower()` (per-character lowering). -/
def strLower (s : String) : String := String.mk (s.data.map Char.toLower)

/-- Python `s.strip()`. -/
def strip (s : String) : String :=
  String.mk (((s.data.dropWhile isPySpace).reverse.dropWhile isPySpace).reverse)

/-! ### Windows path primitives (`os.path` restricted to the deep,
non-drive-root paths this plugin manipulates) -/

def isSep (c : Char) : Bool := c == '\\' || c == '/'

/-- `os.path.dirname`: everything strictly before the last path separator
(empty when there is none).  Drive-root normalisation is not modelled; the
plugin only ever applies this to paths well below the root. -/
def dirname (s : String) : String :=
  String.mk (((s.data.reverse.dropWhile (fun c => !isSep c)).drop 1).reverse)

/-- `os.path.basename`: everything after the last path separator. -/
def basename (s : String) : String :=
  String.mk ((s.data.reverse.takeWhile (fun c => !isSep c)).reverse)

/-- `os.path.join` for a relative second component. -/
def joinPath (a b : String) : String :=
  match a.data.getLast? with
  | none => b
  | some c => if isSep c then a ++ b else a ++ "\\" ++ b

/-! ### Filesystem model -/

/-- The filesystem: which paths exist, and on which paths `os.makedirs`
raises an `OSError` other than `EEXIST`. -/
structure FS where
  pathExists : String → Bool
  mkdirFails : String → Bool

/-- `create_dir` from linter.py: make the directory, eating the `EEXIST`
error when it already exists; `none` models a propagated `OSError`. -/
def create_dir (fs : FS) (d : String) : Option FS :=
  if fs.pathExists d then some fs
  else if fs.mkdirFails d then none
  else some { fs with pathExists := fun p => if p = d then true else fs.pathExists p }

/-- A freshly created temp file. -/
def addFile (fs : FS) (p : String) : FS :=
  { fs with pathExists := fun q => if q = p then true else fs.pathExists q }

/-- `os.remove`. -/
def removeFile (fs : FS) (p : String) : FS :=
  { fs with pathExists := fun q => if q = p then false else fs.pathExists q }

/-! ### The RING_MATCHER regular expression

`RING_MATCHER = ((.*?\\([^:\\/\n]+?)\.Universe)\\([^:\\/\n]+?)\.Ring)(?![^\\])`
compiled with IGNORECASE and used with `.match` (anchored at the start).
The model reproduces the backtracking order of the lazy quantifiers and
returns groups 3 (universe name) and 4 (ring name), the only groups the
plugin reads. -/

/-- The character class `[^:\\/\n]` (negated). -/
def isUDelim (c : Char) : Bool := c == ':' || c == '\\' || c == '/' || c == '\n'

/-- Case-insensitive literal match at the head of the text; returns the rest. -/
def matchLitCI : List Char → List Char → Option (List Char)
  | [], l => some l
  | _ :: _, [] => none
  | p :: ps, c :: cs => if p.toLower == c.toLower then matchLitCI ps cs else none

/-- Lazy `([^:\\/\n]+?)\.Ring(?![^\\])`: shortest group first, extending on
failure of the literal or of the lookahead. -/
def tryRing (acc : List Char) : List Char → Option String
  | [] => none
  | c :: rest =>
    if isUDelim c then none
    else
      let acc2 := acc ++ [c]
      match matchLitCI ".Ring".data rest with
      | some rest2 =>
        if rest2.isEmpty || rest2.head? == some '\\' then some (String.mk acc2)
        else tryRing acc2 rest
      | none => tryRing acc2 rest

/-- Lazy `([^:\\/\n]+?)\.Universe\\` followed by the ring part: shortest
group first, extending the group when the continuation fails. -/
def tryUni (acc : List Char) : List Char → Option (String × String)
  | [] => none
  | c :: rest =>
    if isUDelim c then none
    else
      let acc2 := acc ++ [c]
      match matchLitCI ".Universe".data rest with
      | some ('\\' :: rest2) =>
        (match tryRing [] rest2 with
         | some ringName => some (String.mk acc2, ringName)
         | none => tryUni acc2 rest)
      | _ => tryUni acc2 rest

/-- Lazy `.*?\\` prefix: try to place the backslash at each position, left
to right; `.` does not match a newline. -/
def scanStar : List Char → Option (String × String)
  | [] => none
  | c :: rest =>
    if c == '\n' then none
    else if c == '\\' then
      match tryUni [] rest with
      | some r => some r
      | none => scanStar rest
    else scanStar rest

/-- `RING_MATCHER.match(s)`, reduced to groups 3 and 4. -/
def ringMatcherMatch (s : String) : Option (String × String) := scanStar s.data

/-! ### Module-level functions -/

/-- `get_env` from linter.py; `env` models `os.getenv`. -/
def get_env (env : String → Option String) (environ_name : String) : Option String :=
  match env environ_name with
  | some v => some v
  | none =>
    if hasSub environ_name "ProgramFiles" || hasSub environ_name "ProgramW6432" then
      env "ProgramFiles"
    else none

/-! ### Host editor / framework context and mutable state -/

/-- A Sublime buffer region (only its begin point is read). -/
structure Region where
  start : Nat
deriving DecidableEq

/-- Everything the linter instance reads from its host: the current file
name, the Sublime and SublimeLinter APIs, the environment and the platform
dependent Meditech cache root.  All are external to this repository. -/
structure Ctx where
  filename : String
  packagesPath : String
  programFilesX86 : Option String
  cacheRoot : String
  sysTempDir : String
  freshTempName : String → String
  communicate : List String → String
  find : String → Nat → Option Region
  rowcol : Nat → Nat × Nat

/-- The mutable state: the filesystem, the class attributes `Dir_Map` and
`LastIncludeMatch`, plus two instrumentation logs (number of buffer
searches performed and the argument lists passed to `_communicate`). -/
structure Sys where
  fs : FS
  dirMap : List (String × String)
  lastIncludeMatch : Option (String × String × Option Region)
  findCalls : Nat
  commLog : List (List String)

/-- The named groups of a successful `regex` match that `split_match`
reads, together with the values the SublimeLinter base class derives from
them.  `error` and `warning` are the two named alternation groups; at most
one of them can be non-None for a real match of the plugin regex. -/
structure MatchData where
  filename : String
  line : Nat
  col : Option Nat
  error : Option String
  warning : Option String
  message : String
  near : Option String
deriving DecidableEq

/-- The 7-tuple `split_match` returns: match object, line, col, error,
warning, message, near.  Python `None` and `False` are both `none`. -/
structure SplitTuple where
  m : Option MatchData
  line : Option Nat
  col : Option Nat
  error : Option String
  warning : Option String
  message : Option String
  near : Option String
deriving DecidableEq

/-- Python truthiness for the `Option String` values flowing through
`split_match` (None and the empty string are falsy). -/
def truthy : Option String → Bool
  | none => false
  | some s => !s.isEmpty

/-- `super().split_match(match)` of the SublimeLinter base class: the named
groups of the match, or a tuple of Nones (with an empty message) when there
is no match. -/
def superSplit : Option MatchData → SplitTuple
  | some md => ⟨some md, some md.line, md.col, md.error, md.warning, some md.message, md.near⟩
  | none => ⟨none, none, none, none, none, some "", none⟩

/-- Lines 182-187 of linter.py: force exactly one truthy marker, defaulting
to an error when neither group matched. -/
def classify (e w : Option String) : Option String × Option String :=
  if truthy e then (some " ", w)
  else if truthy w then (e, some " ")
  else (some " ", w)

/-- Lines 174-180 of linter.py: reclassify a "has no :Doc" message found
past position zero as a warning whose near text is the stripped prefix,
and point "@HV" messages at the `@HV` token. -/
def adjust (message : String) (e w n : Option String) :
    Option String × Option String × Option String :=
  let ndi := strFindInt message "has no :Doc"
  if ndi > 0 then (none, some "Warning", some (strip (strTake message ndi.toNat)))
  else if leadsWith message "@HV" then (e, w, some "@HV")
  else (e, w, n)

/-- The buffer search pattern built for an include file diagnostic. -/
def includePattern (temp_name : String) : String := "\\s*File\\s+" ++ temp_name

/-- `At_code_checker.split_match`. -/
def split_match (ctx : Ctx) (sys : Sys) (om : Option MatchData) : SplitTuple × Sys :=
  let s := superSplit om
  let message := s.message.getD ""
  let ewn := adjust message s.error s.warning s.near
  let ew := classify ewn.1 ewn.2.1
  match om with
  | none => (⟨none, s.line, s.col, ew.1, ew.2, some message, ewn.2.2⟩, sys)
  | some md =>
    if leadsWith md.filename "atcc-" then
      (⟨some md, s.line, s.col, ew.1, ew.2, some message, ewn.2.2⟩, sys)
    else
      let temp_name := md.filename
      let rs :=
        match sys.lastIncludeMatch with
        | some (f, t, r) =>
          if (f, t) = (ctx.filename, temp_name) then (r, sys)
          else
            let r2 := ctx.find (includePattern temp_name) 0
            (r2, { sys with lastIncludeMatch := some (ctx.filename, temp_name, r2),
                            findCalls := sys.findCalls + 1 })
        | none =>
          let r2 := ctx.find (includePattern temp_name) 0
          (r2, { sys with lastIncludeMatch := some (ctx.filename, temp_name, r2),
                          findCalls := sys.findCalls + 1 })
      match rs.1 with
      | some reg =>
        (⟨some md, some ((ctx.rowcol reg.start).1 + 1), s.col, ew.1, ew.2, some message,
          some temp_name⟩, rs.2)
      | none => (⟨some md, none, none, none, none, none, none⟩, rs.2)

/-! ### Temp directory resolution -/

/-- `At_code_checker.meditech_pgmsource_cache` (with the platform dependent
`meditech_cache_root` supplied by the context). -/
def meditech_pgmsource_cache (root uni rng : String) : String :=
  joinPath (joinPath (joinPath (joinPath (joinPath (joinPath
    (joinPath root uni) rng) "!AllUsers") "Sys") "PgmCache") "Ring") "PgmSource"

/-- The tail of `get_temp_dir` after the cache directory is known to
exist: append the codebase component and create it, falling back to the
system default on `OSError`. -/
def get_temp_dir_tail (ctx : Ctx) (base temp_dir : String) (fs : FS) : String × FS :=
  let codebase := basename (dirname ctx.filename)
  let temp_dir2 := joinPath temp_dir codebase
  match create_dir fs temp_dir2 with
  | none => (base, fs)
  | some fs2 => (temp_dir2, fs2)

/-- `At_code_checker.get_temp_dir`.  `uni` and `rng` are the local
variables named universe and ring in the Python source. -/
def get_temp_dir (ctx : Ctx) (fs : FS) : String × FS :=
  let base := ctx.sysTempDir
  match ringMatcherMatch ctx.filename with
  | none => (base, fs)
  | some (g3, g4) =>
    let uni := g3 ++ ".Universe"
    let rng0 := g4 ++ ".Ring"
    let rng := if hasSub ctx.filename "SoloFocus" then rng0 ++ ".Local" else rng0
    let temp_dir := meditech_pgmsource_cache ctx.cacheRoot uni rng
    if fs.pathExists temp_dir then get_temp_dir_tail ctx base temp_dir fs
    else if fs.pathExists (dirname temp_dir) then
      match create_dir fs temp_dir with
      | none => (base, fs)
      | some fs1 => get_temp_dir_tail ctx base temp_dir fs1
    else (base, fs)

/-- `At_code_checker.tmpdir`.  Note that the `finally: return path` of the
Python source swallows an `OSError` raised while recreating a cached
directory, so the cached path is returned in every case. -/
def tmpdir (ctx : Ctx) (sys : Sys) : String × Sys :=
  let key := strLower (dirname ctx.filename)
  match sys.dirMap.lookup key with
  | some path =>
    if sys.fs.pathExists path then (path, sys)
    else
      match create_dir sys.fs path with
      | some fs2 => (path, { sys with fs := fs2 })
      | none => (path, sys)
  | none =>
    let pf := get_temp_dir ctx sys.fs
    (pf.1, { sys with fs := pf.2, dirMap := (key, pf.1) :: sys.dirMap })

/-! ### Temp file lifecycle and subprocess invocation -/

/-- `At_code_checker._make_temp_file` run on a body (the content written to
the file is not observable in this model, so `code` is unused beyond being
passed through).  The file is created in the directory `tmpdir` resolves
and removed in the `finally` block after the body finishes, whether it
returns normally (`Except.ok`) or raises (`Except.error`). -/
def make_temp_file (ctx : Ctx) (sys : Sys) (code : String)
    (body : String → Sys → Except Unit String × Sys) : Except Unit String × Sys :=
  let _ := code
  let ds := tmpdir ctx sys
  let name := ctx.freshTempName ds.1
  let sys2 := { ds.2 with fs := addFile ds.2.fs name }
  let rs := body name sys2
  (rs.1, { rs.2 with fs := removeFile rs.2.fs name })

/-- Replace the first occurrence of `a` in the list by `b` (the effect of
`cmd[cmd.index(a)] = b` on a list containing `a`). -/
def replaceFirst : List String → String → String → List String
  | [], _, _ => []
  | x :: xs, a, b => if x = a then b :: xs else x :: replaceFirst xs a b

/-- Lines 229-234 of linter.py: splice the temp file path into the command
list, replacing the first `@` when present and appending otherwise. -/
def buildCmd (cmd : List String) (temp_path : String) : List String :=
  if "@" ∈ cmd then replaceFirst cmd "@" temp_path else cmd ++ [temp_path]

/-- `At_code_checker.tmpfile`. -/
def tmpfile (ctx : Ctx) (sys : Sys) (cmd : List String) (code : String) : String × Sys :=
  if hasSub ctx.filename "DataDefs" then ("", sys)
  else if hasSub ctx.filename "!DictionarySource" then ("", sys)
  else
    let rs := make_temp_file ctx sys code (fun temp_path s =>
      let cmd2 := buildCmd cmd temp_path
      (Except.ok (ctx.communicate cmd2), { s with commLog := s.commLog ++ [cmd2] }))
    (match rs.1 with
     | Except.ok out => out
     | Except.error _ => "", rs.2)

/-! ### Executable location -/

/-- `os.path.expandvars` applied to the leading `%PROGRAMFILES(X86)%`
component: the value of the variable when set, the literal text otherwise. -/
def expandProgramFilesX86 (v : Option String) : String :=
  match v with
  | some s => s
  | none => "%PROGRAMFILES(X86)%"

/-- The mtad installation path probed by `At_code_checker.mtad_path`. -/
def mtad_exe_path (ctx : Ctx) (cmd : String) : String :=
  joinPath (joinPath (joinPath (joinPath (expandProgramFilesX86 ctx.programFilesX86)
    "MEDITECH") "M-AT Tools") "M-AT_Code_Checker") (cmd ++ ".exe")

/-- `At_code_checker.mtad_path`. -/
def mtad_path (ctx : Ctx) (fs : FS) (cmd : String) : Option String :=
  let linter_path := mtad_exe_path ctx cmd
  if fs.pathExists linter_path then some linter_path else none

/-- `get_bundled_linter_path` from linter.py. -/
def get_bundled_linter_path (packagesPath : String) : String :=
  joinPath (joinPath packagesPath "SublimeLinter-contrib-at_code_checker") "at_code_checker"

/-- The bundled package path probed by `At_code_checker.bundled_path`. -/
def bundled_exe_path (ctx : Ctx) (cmd : String) : String :=
  joinPath (get_bundled_linter_path ctx.packagesPath) (cmd ++ ".exe")

/-- `At_code_checker.bundled_path`; the boolean records whether the
out-of-date warning was logged. -/
def bundled_path (ctx : Ctx) (fs : FS) (cmd : String) : Option String × Bool :=
  let linter_path := bundled_exe_path ctx cmd
  if fs.pathExists linter_path then (some linter_path, true) else (none, false)

/-- `At_code_checker.which`: `mtad_path(cmd) or bundled_path(cmd)` (the
mtad path, when found, is a nonempty string and hence truthy). -/
def which (ctx : Ctx) (fs : FS) (cmd : String) : Option String × Bool :=
  match mtad_path ctx fs cmd with
  | some p => (some p, false)
  | none => bundled_path ctx fs cmd

/-! ### Witness fixtures -/

/-- A filesystem with nothing on it. -/
def emptyFS : FS := ⟨fun _ => false, fun _ => false⟩

/-- A filesystem on which every path exists. -/
def fullFS : FS := ⟨fun _ => true, fun _ => false⟩

/-- Fresh mutable state over a given filesystem. -/
def freshSys (fs : FS) : Sys := ⟨fs, [], none, 0, []⟩

/-- A context builder with inert host APIs; only the fields a particular
witness reads matter. -/
def mkCtx (filename : String) : Ctx :=
  { filename := filename
    packagesPath := "C:\\Packages"
    programFilesX86 := some "C:\\PF86"
    cacheRoot := "C:\\PD\\Meditech"
    sysTempDir := "C:\\Temp"
    freshTempName := fun d => joinPath d "atcc-1.focus"
    communicate := fun _ => "out"
    find := fun _ _ => none
    rowcol := fun n => (n, 0) }

/-! ### Theorems -/

/-- C10: `get_env` returns the value of the variable when it is set; when
it is unset and the name contains "ProgramFiles" or "ProgramW6432" it falls
back to the value of the "ProgramFiles" variable; otherwise it returns
None. -/
theorem get_env_spec (env : String → Option String) (name : String) :
    (∀ v, env name = some v → get_env env name = some v) ∧
    (env name = none →
      get_env env name =
        if hasSub name "ProgramFiles" || hasSub name "ProgramW6432" then env "ProgramFiles"
        else none) := by
  constructor
  · intro v hv
    simp [get_env, hv]
  · intro h
    simp only [get_env, h]

/-- Witness for C10: with only "ProgramFiles" set, an unset name containing
"ProgramW6432" falls back to its value. -/
theorem get_env_spec_witness :
    get_env (fun n => if n = "ProgramFiles" then some "C:\\PF" else none) "ProgramW6432" =
      some "C:\\PF" := by
  have h := (get_env_spec (fun n => if n = "ProgramFiles" then some "C:\\PF" else none)
    "ProgramW6432").2 (by decide)
  rw [h]
  decide

/-- C1: `which` returns the mtad installation path when a file exists
there; otherwise the bundled package path when a file exists there, and
only in that case is the out-of-date warning logged (the boolean); when
neither exists it returns no path and logs nothing. -/
theorem which_spec (ctx : Ctx) (fs : FS) (cmd : String) :
    which ctx fs cmd =
      if fs.pathExists (mtad_exe_path ctx cmd) then (some (mtad_exe_path ctx cmd), false)
      else if fs.pathExists (bundled_exe_path ctx cmd) then (some (bundled_exe_path ctx cmd), true)
      else (none, false) := by
  by_cases h1 : fs.pathExists (mtad_exe_path ctx cmd) <;>
    by_cases h2 : fs.pathExists (bundled_exe_path ctx cmd) <;>
      simp [which, mtad_path, bundled_path, h1, h2]

/-- C4: once `_make_temp_file` has created the temporary file, the file no
longer exists after the context exits, for every possible body - in
particular both for a body that returns normally and for one that raises. -/
theorem make_temp_file_removes (ctx : Ctx) (sys : Sys) (code : String)
    (body : String → Sys → Except Unit String × Sys) :
    ((make_temp_file ctx sys code body).2).fs.pathExists
      (ctx.freshTempName (tmpdir ctx sys).1) = false := by
  simp [make_temp_file, removeFile]

/-- C8: for a filename containing "DataDefs" or "!DictionarySource",
`tmpfile` returns the empty string with the state untouched: no temp file
is created and `_communicate` is never invoked. -/
theorem tmpfile_skip (ctx : Ctx) (sys : Sys) (cmd : List String) (code : String)
    (h : hasSub ctx.filename "DataDefs" = true ∨ hasSub ctx.filename "!DictionarySource" = true) :
    tmpfile ctx sys cmd code = ("", sys) := by
  by_cases h1 : hasSub ctx.filename "DataDefs" = true
  · simp [tmpfile, h1]
  · rcases h with h | h
    · exact absurd h h1
    · simp [tmpfile, h1, h]

/-- Witness for C8 on a concrete DataDefs file. -/
theorem tmpfile_skip_witness :
    tmpfile (mkCtx "C:\\U.Universe\\R.Ring\\DataDefs\\x.focus") (freshSys emptyFS)
      ["at_code_checker", "@"] "some code" = ("", freshSys emptyFS) :=
  tmpfile_skip (mkCtx "C:\\U.Universe\\R.Ring\\DataDefs\\x.focus") (freshSys emptyFS)
    ["at_code_checker", "@"] "some code" (Or.inl (by decide))

/-- Replacing the first `@` of a list not containing `tp` produces exactly
one occurrence of `tp`. -/
theorem count_replaceFirst (cmd : List String) (tp : String) (h : tp ∉ cmd)
    (hm : "@" ∈ cmd) : (replaceFirst cmd "@" tp).count tp = 1 := by
  induction cmd with
  | nil => cases hm
  | cons x xs ih =>
    have hxtp : tp ≠ x := fun he => h (he ▸ List.mem_cons_self x xs)
    have hxs : tp ∉ xs := fun he => h (List.mem_cons_of_mem x he)
    rw [replaceFirst]
    by_cases hx : x = "@"
    · rw [if_pos hx]
      simp [List.count_cons, List.count_eq_zero.2 hxs]
    · rw [if_neg hx]
      have hm' : "@" ∈ xs := by
        rcases List.mem_cons.1 hm with h1 | h1
        · exact absurd h1.symm hx
        · exact h1
      simp [List.count_cons, ih hxs hm', hxtp]

/-- `replaceFirst` is `List.set` at the first index of the element. -/
theorem replaceFirst_eq_set (cmd : List String) (tp : String) (hm : "@" ∈ cmd) :
    replaceFirst cmd "@" tp = cmd.set (cmd.indexOf "@") tp := by
  induction cmd with
  | nil => cases hm
  | cons x xs ih =>
    rw [replaceFirst]
    by_cases hx : x = "@"
    · subst hx
      simp [List.indexOf_cons_self]
    · rw [if_neg hx]
      have hm' : "@" ∈ xs := by
        rcases List.mem_cons.1 hm with h1 | h1
        · exact absurd h1.symm hx
        · exact h1
      rw [List.indexOf_cons_ne _ (by simpa using hx)]
      simp [ih hm']

/-- `tmpdir` never touches the `_communicate` log. -/
theorem tmpdir_commLog (ctx : Ctx) (sys : Sys) :
    (tmpdir ctx sys).2.commLog = sys.commLog := by
  simp only [tmpdir]
  split
  · split
    · rfl
    · split <;> rfl
  · rfl

/-- C5 (amended): provided the temp file path is not already an element of
the command list, `tmpfile` splices it in exactly once - replacing the
first `@` when one is present (all other elements unchanged, in order) and
appending it otherwise - and passes exactly that list to `_communicate`. -/
theorem tmpfile_cmd_spec (ctx : Ctx) (sys : Sys) (code : String) (cmd : List String)
    (tp : String) (h : tp ∉ cmd) :
    (buildCmd cmd tp).count tp = 1 ∧
    ("@" ∉ cmd → buildCmd cmd tp = cmd ++ [tp]) ∧
    ("@" ∈ cmd → buildCmd cmd tp = cmd.set (cmd.indexOf "@") tp) ∧
    (hasSub ctx.filename "DataDefs" = false → hasSub ctx.filename "!DictionarySource" = false →
      (tmpfile ctx sys cmd code).2.commLog =
        sys.commLog ++ [buildCmd cmd (ctx.freshTempName (tmpdir ctx sys).1)]) := by
  refine ⟨?_, ?_, ?_, ?_⟩
  · by_cases hm : "@" ∈ cmd
    · rw [buildCmd, if_pos hm]
      exact count_replaceFirst cmd tp h hm
    · rw [buildCmd, if_neg hm]
      simp [List.count_append, List.count_eq_zero.2 h]
  · intro hm
    rw [buildCmd, if_neg hm]
  · intro hm
    rw [buildCmd, if_pos hm]
    exact replaceFirst_eq_set cmd tp hm
  · intro h1 h2
    simp only [tmpfile, h1, h2, Bool.false_eq_true, if_false]
    simp [make_temp_file, tmpdir_commLog]

/-- Witness for C5 on the actual command list of the plugin. -/
theorem tmpfile_cmd_spec_witness :
    (buildCmd ["at_code_checker", "@"] "C:\\Temp\\atcc-1.focus").count
      "C:\\Temp\\atcc-1.focus" = 1 :=
  (tmpfile_cmd_spec (mkCtx "C:\\x\\y.focus") (freshSys emptyFS) "c" ["at_code_checker", "@"]
    "C:\\Temp\\atcc-1.focus" (by decide)).1

/-- A context whose temp file name generator collides with the command
name, exhibiting the unguarded corner of claim C5. -/
def ctxC5 : Ctx :=
  { mkCtx "C:\\plain\\file.focus" with freshTempName := fun _ => "at_code_checker" }

/-- Counterexample to C5 as stated: for the command list
["at_code_checker"] and a temp file path equal to that element, the list
passed to `_communicate` contains the temp file path twice, not exactly
once. -/
theorem tmpfile_cmd_counterexample :
    (tmpfile ctxC5 (freshSys emptyFS) ["at_code_checker"] "c").2.commLog =
      [["at_code_checker", "at_code_checker"]] ∧
    (["at_code_checker", "at_code_checker"] : List String).count "at_code_checker" = 2 := by
  constructor
  · decide
  · decide

/-! ### C2: temp directory fallback behaviour -/

/-- The ring cache directory `get_temp_dir` computes from the two captured
regex groups. -/
def ringCacheDir (ctx : Ctx) (g3 g4 : String) : String :=
  meditech_pgmsource_cache ctx.cacheRoot (g3 ++ ".Universe")
    (if hasSub ctx.filename "SoloFocus" then g4 ++ ".Ring" ++ ".Local" else g4 ++ ".Ring")

/-- The codebase subdirectory of the ring cache directory. -/
def codebaseDir (ctx : Ctx) (g3 g4 : String) : String :=
  joinPath (ringCacheDir ctx g3 g4) (basename (dirname ctx.filename))

theorem data_append (a b : String) : (a ++ b).data = a.data ++ b.data := rfl

theorem joinPath_getLast (a b : String) (hb : b.data ≠ []) :
    (joinPath a b).data.getLast? = b.data.getLast? := by
  unfold joinPath
  cases h : a.data.getLast? with
  | none => rfl
  | some c =>
    by_cases hs : isSep c = true
    · simp only [hs, if_true, data_append]
      exact List.getLast?_append_of_ne_nil _ hb
    · simp only [hs, if_false, Bool.false_eq_true, data_append]
      exact List.getLast?_append_of_ne_nil _ hb

/-- The ring cache directory always ends in the letter e of "PgmSource". -/
theorem ringCacheDir_getLast (ctx : Ctx) (g3 g4 : String) :
    (ringCacheDir ctx g3 g4).data.getLast? = some 'e' := by
  unfold ringCacheDir meditech_pgmsource_cache
  rw [joinPath_getLast _ _ (by decide)]
  decide

theorem joinPath_of_not_sep (a b : String) (c : Char) (h : a.data.getLast? = some c)
    (hs : isSep c = false) : joinPath a b = a ++ "\\" ++ b := by
  unfold joinPath
  rw [h]
  simp [hs]

/-- Appending the separator and the codebase component never gives back the
cache directory itself. -/
theorem codebaseDir_ne_ringCacheDir (ctx : Ctx) (g3 g4 : String) :
    codebaseDir ctx g3 g4 ≠ ringCacheDir ctx g3 g4 := by
  unfold codebaseDir
  rw [joinPath_of_not_sep _ _ 'e' (ringCacheDir_getLast ctx g3 g4) (by decide)]
  intro he
  have h2 := congrArg (fun s => s.data.length) he
  simp only [data_append, List.length_append, List.length_singleton] at h2
  omega

/-- The result of the tail step of `get_temp_dir`. -/
theorem get_temp_dir_tail_fst (ctx : Ctx) (base td : String) (fs : FS) :
    (get_temp_dir_tail ctx base td fs).1 =
      if fs.pathExists (joinPath td (basename (dirname ctx.filename))) = false
          ∧ fs.mkdirFails (joinPath td (basename (dirname ctx.filename))) = true
      then base
      else joinPath td (basename (dirname ctx.filename)) := by
  unfold get_temp_dir_tail create_dir
  by_cases h2 : fs.pathExists (joinPath td (basename (dirname ctx.filename))) = true <;>
    by_cases h3 : fs.mkdirFails (joinPath td (basename (dirname ctx.filename))) = true <;>
      simp [h2, h3]

/-- C2: `get_temp_dir` returns the system default temp directory when the
filename does not match the Universe/Ring pattern, when the parent of the
ring cache directory does not exist, or when creating the ring cache
directory or its codebase subdirectory raises `OSError`; otherwise it
returns the codebase subdirectory of the ring cache directory.  The
hypothesis is the filesystem invariant that a directory only exists when
its parent does. -/
theorem get_temp_dir_spec (ctx : Ctx) (fs : FS) :
    (ringMatcherMatch ctx.filename = none → (get_temp_dir ctx fs).1 = ctx.sysTempDir) ∧
    (∀ g3 g4, ringMatcherMatch ctx.filename = some (g3, g4) →
      (fs.pathExists (ringCacheDir ctx g3 g4) = true →
        fs.pathExists (dirname (ringCacheDir ctx g3 g4)) = true) →
      (get_temp_dir ctx fs).1 =
        if fs.pathExists (dirname (ringCacheDir ctx g3 g4)) = false
            ∨ (fs.pathExists (ringCacheDir ctx g3 g4) = false
                ∧ fs.mkdirFails (ringCacheDir ctx g3 g4) = true)
            ∨ (fs.pathExists (codebaseDir ctx g3 g4) = false
                ∧ fs.mkdirFails (codebaseDir ctx g3 g4) = true)
        then ctx.sysTempDir
        else codebaseDir ctx g3 g4) := by
  constructor
  · intro h
    simp [get_temp_dir, h]
  · intro g3 g4 hm hup
    have htd : meditech_pgmsource_cache ctx.cacheRoot (g3 ++ ".Universe")
        (if hasSub ctx.filename "SoloFocus" then g4 ++ ".Ring" ++ ".Local" else g4 ++ ".Ring") =
        ringCacheDir ctx g3 g4 := rfl
    have hcb : joinPath (ringCacheDir ctx g3 g4) (basename (dirname ctx.filename)) =
        codebaseDir ctx g3 g4 := rfl
    have hne := codebaseDir_ne_ringCacheDir ctx g3 g4
    simp only [get_temp_dir, hm, htd]
    by_cases h1 : fs.pathExists (ringCacheDir ctx g3 g4) = true
    · rw [if_pos h1, get_temp_dir_tail_fst, hcb]
      by_cases h2 : fs.pathExists (codebaseDir ctx g3 g4) = false
          ∧ fs.mkdirFails (codebaseDir ctx g3 g4) = true
      · rw [if_pos h2, if_pos (Or.inr (Or.inr h2))]
      · rw [if_neg h2, if_neg ?_]
        simp only [not_or]
        refine ⟨by simp [hup h1], by simp [h1], h2⟩
    · rw [if_neg h1]
      by_cases hp : fs.pathExists (dirname (ringCacheDir ctx g3 g4)) = true
      · rw [if_pos hp]
        unfold create_dir
        rw [if_neg (by simpa using h1)]
        by_cases hf : fs.mkdirFails (ringCacheDir ctx g3 g4) = true
        · rw [if_pos hf]
          rw [if_pos (Or.inr (Or.inl ⟨by simpa using h1, hf⟩))]
        · rw [if_neg hf]
          rw [get_temp_dir_tail_fst, hcb]
          have hex : (fun p => if p = ringCacheDir ctx g3 g4 then true else fs.pathExists p)
              (codebaseDir ctx g3 g4) = fs.pathExists (codebaseDir ctx g3 g4) := by
            simp [hne]
          simp only [hex]
          by_cases h2 : fs.pathExists (codebaseDir ctx g3 g4) = false
              ∧ fs.mkdirFails (codebaseDir ctx g3 g4) = true
          · rw [if_pos h2, if_pos (Or.inr (Or.inr h2))]
          · rw [if_neg h2, if_neg ?_]
            simp only [not_or]
            refine ⟨by simp [hp], by simp [hf], h2⟩
      · rw [if_neg hp, if_pos (Or.inl (by simpa using hp))]

/-- Witness for C2: on a full filesystem the codebase subdirectory of the
ring cache is returned for a well-formed ring path. -/
theorem get_temp_dir_spec_witness :
    (get_temp_dir (mkCtx "C:\\U.Universe\\R.Ring\\HHA\\x.focus") fullFS).1 =
      "C:\\PD\\Meditech\\U.Universe\\R.Ring\\!AllUsers\\Sys\\PgmCache\\Ring\\PgmSource\\HHA" := by
  have h := (get_temp_dir_spec (mkCtx "C:\\U.Universe\\R.Ring\\HHA\\x.focus") fullFS).2
    "U" "R" (by decide) (fun _ => by decide)
  rw [h]
  decide

/-! ### C6: the directory cache -/

/-- On a cache hit `tmpdir` returns the cached path and leaves the map
unchanged, whatever the existence check and recreation do. -/
theorem tmpdir_hit (ctx : Ctx) (sys : Sys) (v : String)
    (hv : sys.dirMap.lookup (strLower (dirname ctx.filename)) = some v) :
    (tmpdir ctx sys).1 = v ∧ (tmpdir ctx sys).2.dirMap = sys.dirMap := by
  simp only [tmpdir, hv]
  constructor
  · split
    · rfl
    · split <;> rfl
  · split
    · rfl
    · split <;> rfl

/-- On a cache miss `tmpdir` computes the directory with `get_temp_dir`
and inserts it under the lowercased key. -/
theorem tmpdir_miss (ctx : Ctx) (sys : Sys)
    (h : sys.dirMap.lookup (strLower (dirname ctx.filename)) = none) :
    tmpdir ctx sys = ((get_temp_dir ctx sys.fs).1,
      { sys with fs := (get_temp_dir ctx sys.fs).2,
                 dirMap := (strLower (dirname ctx.filename), (get_temp_dir ctx sys.fs).1)
                   :: sys.dirMap }) := by
  simp only [tmpdir, h]

/-- C6: the directory cache maps the lowercased source directory to its
resolved temp directory.  A hit returns the cached value and never
recomputes or overwrites it; a miss computes the entry via `get_temp_dir`
and inserts it under the lowercased key; no entry is ever removed or
overwritten; and every key is either an old key or the lowercased
directory of the current file. -/
theorem tmpdir_dir_map_spec (ctx : Ctx) (sys : Sys) :
    (∀ v, sys.dirMap.lookup (strLower (dirname ctx.filename)) = some v →
      (tmpdir ctx sys).1 = v ∧ (tmpdir ctx sys).2.dirMap = sys.dirMap) ∧
    (sys.dirMap.lookup (strLower (dirname ctx.filename)) = none →
      (tmpdir ctx sys).1 = (get_temp_dir ctx sys.fs).1 ∧
      (tmpdir ctx sys).2.dirMap =
        (strLower (dirname ctx.filename), (tmpdir ctx sys).1) :: sys.dirMap) ∧
    (∀ k v, sys.dirMap.lookup k = some v → (tmpdir ctx sys).2.dirMap.lookup k = some v) ∧
    (∀ kv, kv ∈ (tmpdir ctx sys).2.dirMap →
      kv ∈ sys.dirMap ∨ kv.1 = strLower (dirname ctx.filename)) := by
  refine ⟨fun v hv => tmpdir_hit ctx sys v hv, ?_, ?_, ?_⟩
  · intro h
    rw [tmpdir_miss ctx sys h]
    exact ⟨rfl, rfl⟩
  · intro k v hkv
    cases hm : sys.dirMap.lookup (strLower (dirname ctx.filename)) with
    | some p =>
      rw [(tmpdir_hit ctx sys p hm).2]
      exact hkv
    | none =>
      rw [tmpdir_miss ctx sys hm]
      by_cases hk : k = strLower (dirname ctx.filename)
      · rw [hk, hm] at hkv
        cases hkv
      · have hb : (k == strLower (dirname ctx.filename)) = false := by
          simpa using hk
        simpa [List.lookup, hb] using hkv
  · intro kv hkv
    cases hm : sys.dirMap.lookup (strLower (dirname ctx.filename)) with
    | some p =>
      rw [(tmpdir_hit ctx sys p hm).2] at hkv
      exact Or.inl hkv
    | none =>
      rw [tmpdir_miss ctx sys hm] at hkv
      rcases List.mem_cons.1 hkv with h1 | h1
      · right
        rw [h1]
      · left
        exact h1

/-- Witness for C6: a miss on a fresh cache computes the directory and
stores it under the lowercased source directory. -/
theorem tmpdir_dir_map_spec_witness :
    (tmpdir (mkCtx "C:\\U.Universe\\R.Ring\\HHA\\x.focus") (freshSys fullFS)).1 =
      "C:\\PD\\Meditech\\U.Universe\\R.Ring\\!AllUsers\\Sys\\PgmCache\\Ring\\PgmSource\\HHA" ∧
    (tmpdir (mkCtx "C:\\U.Universe\\R.Ring\\HHA\\x.focus") (freshSys fullFS)).2.dirMap =
      [("c:\\u.universe\\r.ring\\hha",
        (tmpdir (mkCtx "C:\\U.Universe\\R.Ring\\HHA\\x.focus") (freshSys fullFS)).1)] := by
  have h := (tmpdir_dir_map_spec (mkCtx "C:\\U.Universe\\R.Ring\\HHA\\x.focus")
    (freshSys fullFS)).2.1 rfl
  have hkey : strLower (dirname (mkCtx "C:\\U.Universe\\R.Ring\\HHA\\x.focus").filename) =
      "c:\\u.universe\\r.ring\\hha" := by decide
  refine ⟨?_, ?_⟩
  · rw [h.1]
    decide
  · rw [h.2, hkey]
    rfl

/-! ### C3 and C7: include file diagnostics -/

/-- A match for an include file diagnostic (filename group without the
"atcc-" temp file marker). -/
def mdInc : MatchData :=
  ⟨"IncFile", 3, none, none, some "Line", "Line too long", some "x"⟩

/-- C3 (amended): for an include file diagnostic with no usable cache
entry, `split_match` searches the buffer for the include marker pattern;
when a region is found the reported line becomes the region row plus one
and near becomes the include filename; when no region is found the
diagnostic is dropped - line, col, error, warning, message and near are all
None - while the match object itself is still returned. -/
theorem split_match_include_spec (ctx : Ctx) (sys : Sys) (md : MatchData)
    (hatcc : leadsWith md.filename "atcc-" = false)
    (hcache : sys.lastIncludeMatch = none) :
    (∀ reg, ctx.find (includePattern md.filename) 0 = some reg →
      ((split_match ctx sys (some md)).1.line = some ((ctx.rowcol reg.start).1 + 1) ∧
       (split_match ctx sys (some md)).1.near = some md.filename)) ∧
    (ctx.find (includePattern md.filename) 0 = none →
      (split_match ctx sys (some md)).1 = ⟨some md, none, none, none, none, none, none⟩) := by
  constructor
  · intro reg hf
    constructor <;> simp [split_match, hatcc, hcache, hf]
  · intro hf
    simp [split_match, hatcc, hcache, hf]

/-- Witness for C3: a found marker region at point 7 redirects the line to
row 7 plus 1 and underlines the include name. -/
theorem split_match_include_spec_witness :
    (split_match { mkCtx "C:\\cur.focus" with find := fun _ _ => some ⟨7⟩ }
        (freshSys emptyFS) (some mdInc)).1.line = some 8 ∧
    (split_match { mkCtx "C:\\cur.focus" with find := fun _ _ => some ⟨7⟩ }
        (freshSys emptyFS) (some mdInc)).1.near = some "IncFile" := by
  have h := (split_match_include_spec
    { mkCtx "C:\\cur.focus" with find := fun _ _ => some ⟨7⟩ }
    (freshSys emptyFS) mdInc (by decide) rfl).1 ⟨7⟩ rfl
  exact ⟨h.1, h.2⟩

/-- Counterexample to C3 as stated: when no region is found the returned
tuple still carries the match object in its first field, so not all seven
fields are None (the other six are). -/
theorem split_match_drop_counterexample :
    (split_match (mkCtx "C:\\cur.focus") (freshSys emptyFS) (some mdInc)).1.m = some mdInc ∧
    (split_match (mkCtx "C:\\cur.focus") (freshSys emptyFS) (some mdInc)).1.line = none ∧
    (mkCtx "C:\\cur.focus").find (includePattern mdInc.filename) 0 = none := by
  refine ⟨by decide, by decide, rfl⟩

/-- C7: when the cached `LastIncludeMatch` carries the current (filename,
included-name) pair and is consistent with the buffer, `split_match` uses
the cached region - performing no buffer search - and returns the same
tuple as a run that searches on the same buffer; when the pair differs (or
there is no cache), the search result is stored as the new
`LastIncludeMatch`. -/
theorem split_match_cache_spec (ctx : Ctx) (sys : Sys) (md : MatchData)
    (hatcc : leadsWith md.filename "atcc-" = false) :
    (∀ r, sys.lastIncludeMatch = some (ctx.filename, md.filename, r) →
      r = ctx.find (includePattern md.filename) 0 →
      (split_match ctx sys (some md)).2.findCalls = sys.findCalls ∧
      (split_match ctx sys (some md)).1 =
        (split_match ctx { sys with lastIncludeMatch := none } (some md)).1) ∧
    ((∀ f t r, sys.lastIncludeMatch = some (f, t, r) → (f, t) ≠ (ctx.filename, md.filename)) →
      (split_match ctx sys (some md)).2.lastIncludeMatch =
        some (ctx.filename, md.filename, ctx.find (includePattern md.filename) 0)) := by
  constructor
  · intro r hc hr
    subst hr
    constructor <;>
      cases hf : ctx.find (includePattern md.filename) 0 <;>
        rw [hf] at hc <;> simp [split_match, hatcc, hc, hf]
  · intro hne
    cases hc : sys.lastIncludeMatch with
    | none =>
      cases hf : ctx.find (includePattern md.filename) 0 <;>
        simp [split_match, hatcc, hc, hf]
    | some ftr =>
      obtain ⟨f, t, r⟩ := ftr
      have hd := hne f t r hc
      cases hf : ctx.find (includePattern md.filename) 0 <;>
        simp [split_match, hatcc, hc, hd, hf]

/-- Witness for C7: a consistent cache hit performs no search and agrees
with the searching run. -/
theorem split_match_cache_spec_witness :
    (split_match { mkCtx "C:\\cur.focus" with find := fun _ _ => some ⟨4⟩ }
        { freshSys emptyFS with lastIncludeMatch := some ("C:\\cur.focus", "IncFile", some ⟨4⟩) }
        (some mdInc)).2.findCalls = 0 ∧
    (split_match { mkCtx "C:\\cur.focus" with find := fun _ _ => some ⟨4⟩ }
        { freshSys emptyFS with lastIncludeMatch := some ("C:\\cur.focus", "IncFile", some ⟨4⟩) }
        (some mdInc)).1 =
      (split_match { mkCtx "C:\\cur.focus" with find := fun _ _ => some ⟨4⟩ }
        (freshSys emptyFS) (some mdInc)).1 := by
  have h := (split_match_cache_spec { mkCtx "C:\\cur.focus" with find := fun _ _ => some ⟨4⟩ }
    { freshSys emptyFS with lastIncludeMatch := some ("C:\\cur.focus", "IncFile", some ⟨4⟩) }
    mdInc (by decide)).1 (some ⟨4⟩) rfl rfl
  exact ⟨h.1, h.2⟩

/-! ### C9: severity classification -/

/-- For an own temp file diagnostic the tuple is returned directly with the
adjusted and classified fields. -/
theorem split_match_atcc_shape (ctx : Ctx) (sys : Sys) (md : MatchData)
    (h : leadsWith md.filename "atcc-" = true) :
    split_match ctx sys (some md) =
      (⟨some md, some md.line, md.col,
        (classify (adjust md.message md.error md.warning md.near).1
          (adjust md.message md.error md.warning md.near).2.1).1,
        (classify (adjust md.message md.error md.warning md.near).1
          (adjust md.message md.error md.warning md.near).2.1).2,
        some md.message, (adjust md.message md.error md.warning md.near).2.2⟩, sys) := by
  simp [split_match, superSplit, h]

/-- For an include file diagnostic the result is either the dropped tuple
or the redirected tuple with the classified fields. -/
theorem split_match_inc_shape (ctx : Ctx) (sys : Sys) (md : MatchData)
    (h : leadsWith md.filename "atcc-" = false) :
    ((split_match ctx sys (some md)).1 = ⟨some md, none, none, none, none, none, none⟩) ∨
    (∃ reg : Region, (split_match ctx sys (some md)).1 =
      ⟨some md, some ((ctx.rowcol reg.start).1 + 1), md.col,
        (classify (adjust md.message md.error md.warning md.near).1
          (adjust md.message md.error md.warning md.near).2.1).1,
        (classify (adjust md.message md.error md.warning md.near).1
          (adjust md.message md.error md.warning md.near).2.1).2,
        some md.message, some md.filename⟩) := by
  cases hc : sys.lastIncludeMatch with
  | none =>
    cases hf : ctx.find (includePattern md.filename) 0 with
    | none =>
      left
      simp [split_match, superSplit, h, hc, hf]
    | some reg =>
      right
      exact ⟨reg, by simp [split_match, superSplit, h, hc, hf]⟩
  | some ftr =>
    obtain ⟨f, t, r⟩ := ftr
    by_cases hft : (f, t) = (ctx.filename, md.filename)
    · cases r with
      | none =>
        left
        simp [split_match, superSplit, h, hc, hft]
      | some reg =>
        right
        exact ⟨reg, by simp [split_match, superSplit, h, hc, hft]⟩
    · cases hf : ctx.find (includePattern md.filename) 0 with
      | none =>
        left
        simp [split_match, superSplit, h, hc, hft, hf]
      | some reg =>
        right
        exact ⟨reg, by simp [split_match, superSplit, h, hc, hft, hf]⟩

/-- `classify` makes exactly one of the two markers the truthy string " "
and leaves the other falsy, as long as its inputs are not both truthy. -/
theorem classify_exactly_one (e w : Option String)
    (h : ¬(truthy e = true ∧ truthy w = true)) :
    ((classify e w).1 = some " " ∧ truthy (classify e w).2 = false) ∨
    ((classify e w).2 = some " " ∧ truthy (classify e w).1 = false) := by
  unfold classify
  by_cases he : truthy e = true
  · rw [if_pos he]
    left
    refine ⟨rfl, ?_⟩
    rcases hw : truthy w with _ | _
    · rfl
    · exact absurd ⟨he, hw⟩ h
  · rw [if_neg he]
    by_cases hw : truthy w = true
    · rw [if_pos hw]
      right
      exact ⟨rfl, by simpa using he⟩
    · rw [if_neg hw]
      left
      exact ⟨rfl, by simpa using hw⟩

/-- The adjustment step when "has no :Doc" occurs past position zero. -/
theorem adjust_pos (message : String) (e w n : Option String)
    (h : strFindInt message "has no :Doc" > 0) :
    adjust message e w n = (none, some "Warning",
      some (strip (strTake message (strFindInt message "has no :Doc").toNat))) := by
  unfold adjust
  rw [if_pos h]

/-- The adjustment step keeps the two severity groups in the other cases. -/
theorem adjust_neg_ew (message : String) (e w n : Option String)
    (h : ¬strFindInt message "has no :Doc" > 0) :
    (adjust message e w n).1 = e ∧ (adjust message e w n).2.1 = w := by
  unfold adjust
  rw [if_neg h]
  by_cases hh : leadsWith message "@HV" = true <;> simp [hh]

/-- C9 (amended): every tuple `split_match` returns is either dropped (all
data fields None) or carries exactly one of error and warning equal to the
truthy string " " with the other falsy; a message containing "has no :Doc"
past position zero is reclassified as a warning, its near being the
stripped text before the phrase for own temp file diagnostics (an include
redirect overwrites near with the include filename); a line matching
neither regex group defaults to an error.  The hypothesis is the
regex-level fact that the error and warning groups cannot both match. -/
theorem split_match_classify_spec (ctx : Ctx) (sys : Sys) (om : Option MatchData)
    (hdisj : ∀ md, om = some md → ¬(truthy md.error = true ∧ truthy md.warning = true)) :
    (((split_match ctx sys om).1.error = none ∧ (split_match ctx sys om).1.warning = none ∧
        (split_match ctx sys om).1.line = none) ∨
      ((split_match ctx sys om).1.error = some " " ∧
        truthy (split_match ctx sys om).1.warning = false) ∨
      ((split_match ctx sys om).1.warning = some " " ∧
        truthy (split_match ctx sys om).1.error = false)) ∧
    (∀ md, om = some md → strFindInt md.message "has no :Doc" > 0 →
      ((split_match ctx sys om).1.warning = some " " ∧ (split_match ctx sys om).1.error = none) ∨
      ((split_match ctx sys om).1.warning = none ∧ (split_match ctx sys om).1.error = none)) ∧
    (∀ md, om = some md → leadsWith md.filename "atcc-" = true →
      strFindInt md.message "has no :Doc" > 0 →
      (split_match ctx sys om).1.near =
        some (strip (strTake md.message (strFindInt md.message "has no :Doc").toNat))) ∧
    (∀ md, om = some md → truthy md.error = false → truthy md.warning = false →
      ¬strFindInt md.message "has no :Doc" > 0 →
      ((split_match ctx sys om).1.error = some " " ∨
        (split_match ctx sys om).1.error = none ∧ (split_match ctx sys om).1.line = none)) := by
  cases om with
  | none =>
    refine ⟨Or.inr (Or.inl ⟨rfl, rfl⟩), ?_, ?_, ?_⟩ <;> (intro md hmd; cases hmd)
  | some md =>
    have hew : ¬(truthy (adjust md.message md.error md.warning md.near).1 = true ∧
        truthy (adjust md.message md.error md.warning md.near).2.1 = true) := by
      by_cases hnd : strFindInt md.message "has no :Doc" > 0
      · rw [adjust_pos md.message md.error md.warning md.near hnd]
        rintro ⟨h1, _⟩
        cases h1
      · rw [(adjust_neg_ew md.message md.error md.warning md.near hnd).1,
            (adjust_neg_ew md.message md.error md.warning md.near hnd).2]
        exact hdisj md rfl
    by_cases hatcc : leadsWith md.filename "atcc-" = true
    · rw [split_match_atcc_shape ctx sys md hatcc]
      refine ⟨?_, ?_, ?_, ?_⟩
      · rcases classify_exactly_one _ _ hew with h1 | h1
        · exact Or.inr (Or.inl h1)
        · exact Or.inr (Or.inr h1)
      · intro md2 hmd2 hnd
        cases hmd2
        rw [adjust_pos md.message md.error md.warning md.near hnd]
        left
        exact ⟨rfl, rfl⟩
      · intro md2 hmd2 _ hnd
        cases hmd2
        rw [adjust_pos md.message md.error md.warning md.near hnd]
      · intro md2 hmd2 he hw hnd
        cases hmd2
        left
        show (classify (adjust md.message md.error md.warning md.near).1
          (adjust md.message md.error md.warning md.near).2.1).1 = some " "
        rw [(adjust_neg_ew md.message md.error md.warning md.near hnd).1,
            (adjust_neg_ew md.message md.error md.warning md.near hnd).2]
        unfold classify
        rw [if_neg (by simp [he]), if_neg (by simp [hw])]
    · have hatcc2 : leadsWith md.filename "atcc-" = false := by
        simpa using hatcc
      rcases split_match_inc_shape ctx sys md hatcc2 with hs | ⟨reg, hs⟩
      · rw [hs]
        refine ⟨Or.inl ⟨rfl, rfl, rfl⟩, ?_, ?_, ?_⟩
        · intro md2 hmd2 _
          cases hmd2
          right
          exact ⟨rfl, rfl⟩
        · intro md2 hmd2 hin _
          cases hmd2
          rw [hin] at hatcc
          exact absurd rfl hatcc
        · intro md2 hmd2 _ _ _
          cases hmd2
          right
          exact ⟨rfl, rfl⟩
      · rw [hs]
        refine ⟨?_, ?_, ?_, ?_⟩
        · rcases classify_exactly_one _ _ hew with h1 | h1
          · exact Or.inr (Or.inl h1)
          · exact Or.inr (Or.inr h1)
        · intro md2 hmd2 hnd
          cases hmd2
          rw [adjust_pos md.message md.error md.warning md.near hnd]
          left
          exact ⟨rfl, rfl⟩
        · intro md2 hmd2 hin _
          cases hmd2
          rw [hin] at hatcc
          exact absurd rfl hatcc
        · intro md2 hmd2 he hw hnd
          cases hmd2
          left
          show (classify (adjust md.message md.error md.warning md.near).1
            (adjust md.message md.error md.warning md.near).2.1).1 = some " "
          rw [(adjust_neg_ew md.message md.error md.warning md.near hnd).1,
              (adjust_neg_ew md.message md.error md.warning md.near hnd).2]
          unfold classify
          rw [if_neg (by simp [he]), if_neg (by simp [hw])]

/-- Witness for C9 on a concrete warning line of the checker. -/
theorem split_match_classify_spec_witness :
    ((split_match (mkCtx "C:\\cur.focus") (freshSys emptyFS)
        (some ⟨"atcc-1.focus", 3, none, none, some "Line", "Line too long", some "x"⟩)).1.warning =
      some " ") ∧
    truthy ((split_match (mkCtx "C:\\cur.focus") (freshSys emptyFS)
        (some ⟨"atcc-1.focus", 3, none, none, some "Line", "Line too long", some "x"⟩)).1.error) =
      false := by
  have h := (split_match_classify_spec (mkCtx "C:\\cur.focus") (freshSys emptyFS)
    (some ⟨"atcc-1.focus", 3, none, none, some "Line", "Line too long", some "x"⟩)
    (fun md hmd => by cases hmd; decide)).1
  rcases h with h1 | h1 | h1
  · exact absurd h1.2.1 (by decide)
  · exact absurd h1.1 (by decide)
  · exact h1

/-- A "has no :Doc" message arriving as an include file diagnostic with a
found marker region. -/
def mdNoDoc : MatchData :=
  ⟨"Inc", 3, none, none, none, "Foo has no :Doc", none⟩

/-- Counterexample to C9 as stated: for a "has no :Doc" message on an
include diagnostic whose marker is found, the diagnostic is reclassified as
a warning but near is the include filename, not the text before the
phrase. -/
theorem split_match_near_counterexample :
    strFindInt mdNoDoc.message "has no :Doc" > 0 ∧
    (split_match { mkCtx "C:\\cur.focus" with find := fun _ _ => some ⟨2⟩ }
        (freshSys emptyFS) (some mdNoDoc)).1.warning = some " " ∧
    (split_match { mkCtx "C:\\cur.focus" with find := fun _ _ => some ⟨2⟩ }
        (freshSys emptyFS) (some mdNoDoc)).1.near = some "Inc" ∧
    strip (strTake mdNoDoc.message (strFindInt mdNoDoc.message "has no :Doc").toNat) = "Foo" ∧
    (split_match { mkCtx "C:\\cur.focus" with find := fun _ _ => some ⟨2⟩ }
        (freshSys emptyFS) (some mdNoDoc)).1.near ≠
      some (strip (strTake mdNoDoc.message (strFindInt mdNoDoc.message "has no :Doc").toNat)) := by
  refine ⟨by decide, by decide, by decide, by decide, by decide⟩

end AtCodeChecker
